import Mathlib

/-!
Verification of the keep-ecdsa `pkg/ecdsa/tss` core against its specification.

The development shallowly embeds the Go source:
* `marshaling.go` — `ThresholdSigner.Marshal/Unmarshal`, `ThresholdKey.Marshal/Unmarshal`,
  `TSSProtocolMessage.Marshal/Unmarshal`;
* `tss.go` — `GenerateThresholdSigner` and `ThresholdSigner.CalculateSignature`
  (validation order, event order, timeout constants).

Go `*big.Int` values are embedded as `Int`; their `Bytes`/`SetBytes` methods as
minimal big-endian byte lists (`natBytes` / `setBytes`).  Machine-integer
conversions (`int32(...)`, `int(uint)`) are explicit wraps (`wrap32`,
`uintToInt`).  The generated protobuf codec (package `gen/pb`, not part of the
hand-written source) is modelled from the spec as a lossless transport: the
embedding works at the level of decoded protobuf records, so `Marshal` maps a
value to its protobuf record and `Unmarshal` maps the record back.
-/

namespace KeepTss

/-- Go `big.Int.SetBytes`: interpret a byte list as a big-endian unsigned
integer. -/
def setBytes (l : List Nat) : Nat := l.foldl (fun a b => a * 256 + b) 0

/-- Fuel-driven big-endian byte expansion; fuel bounds the recursion depth
(`n / 256 < n` for `n > 0`, so fuel `n` suffices for input `n`). -/
def natBytesAux : Nat → Nat → List Nat
  | 0, _ => []
  | fuel + 1, n => if n = 0 then [] else natBytesAux fuel (n / 256) ++ [n % 256]

/-- Go `big.Int.Bytes` on a magnitude: minimal big-endian byte list of `n`
(the empty list for `n = 0`). -/
def natBytes (n : Nat) : List Nat := natBytesAux n n

/-- Go `big.Int.Bytes`: the absolute value of the integer as its minimal
big-endian byte list (the sign is dropped, zero gives the empty list). -/
def bigIntBytes (i : Int) : List Nat := natBytes i.natAbs

/-- Go `new(big.Int).SetBytes(...)`: always yields a non-negative integer. -/
def bigIntSetBytes (l : List Nat) : Int := Int.ofNat (setBytes l)

/-- 4-byte little-endian encoding of `n mod 2^32`, as written by
`binary.Write(buf, binary.LittleEndian, uint32(n))` in the point encoder. -/
def le32 (n : Nat) : List Nat :=
  [n % 256, n / 256 % 256, n / 65536 % 256, n / 16777216 % 256]

/-- Read a 4-byte little-endian length from the front of a byte list. -/
def readLe32 : List Nat → Option (Nat × List Nat)
  | a :: b :: c :: d :: rest => some (a + 256 * b + 65536 * c + 16777216 * d, rest)
  | _ => none

/-- Go `big.Int.GobEncode`: one header byte (version 1 shifted left, low bit =
sign) followed by the magnitude bytes. -/
def intGobEncode (i : Int) : List Nat :=
  (if i < 0 then 3 else 2) :: natBytes i.natAbs

/-- Go `big.Int.GobDecode`: header byte must carry gob version 1 (value 2 or
3); the rest is the big-endian magnitude. -/
def intGobDecode : List Nat → Option Int
  | [] => none
  | b :: rest =>
    if b = 2 then some (Int.ofNat (setBytes rest))
    else if b = 3 then some (-(Int.ofNat (setBytes rest)))
    else none

/-- tss-lib `crypto.ECPoint`, reduced to its two affine coordinates (the curve
itself is a process-wide constant restored by `GobDecode`). -/
structure ECPoint where
  x : Int
  y : Int
deriving DecidableEq

/-- tss-lib `ECPoint.GobEncode`: gob-encode each coordinate, prefix each with
its `uint32` length in little-endian. -/
def pointGobEncode (p : ECPoint) : List Nat :=
  le32 (intGobEncode p.x).length ++
    (intGobEncode p.x ++ (le32 (intGobEncode p.y).length ++ intGobEncode p.y))

/-- tss-lib `ECPoint.GobDecode`: read length-prefixed gob encodings of the two
coordinates; fail on truncated input. -/
def pointGobDecode (l : List Nat) : Option ECPoint :=
  match readLe32 l with
  | none => none
  | some (lx, r1) =>
    if lx ≤ r1.length then
      match intGobDecode (r1.take lx) with
      | none => none
      | some px =>
        match readLe32 (r1.drop lx) with
        | none => none
        | some (ly, r2) =>
          if ly ≤ r2.length then
            match intGobDecode (r2.take ly) with
            | none => none
            | some py => some ⟨px, py⟩
          else none
    else none

/-- A point's coordinate encodings fit the `uint32` length prefixes used by
`ECPoint.GobEncode` (true of every real curve point by an enormous margin). -/
abbrev pointEncodable (p : ECPoint) : Prop :=
  (intGobEncode p.x).length < 2 ^ 32 ∧ (intGobEncode p.y).length < 2 ^ 32

/-- Go conversion `int32(x)` of a (64-bit) `int`: value modulo `2^32`,
reinterpreted as two's complement. -/
def wrap32 (t : Int) : Int := (t + 2 ^ 31) % 2 ^ 32 - 2 ^ 31

/-- Go conversion `int(u)` of a 64-bit `uint`: same bit pattern reinterpreted
as a signed 64-bit integer. -/
def uintToInt (u : Nat) : Int :=
  if u < 2 ^ 63 then (u : Int) else (u : Int) - 2 ^ 64

/-- paillier `PrivateKey` as persisted by `ThresholdKey.Marshal`: the public
modulus `N` plus `LambdaN` and `PhiN`. -/
structure PaillierPrivateKey where
  publicKeyN : Int
  lambdaN : Int
  phiN : Int
deriving DecidableEq

/-- keygen `LocalPreParams` as persisted: Paillier secret key and the
`NTildei`, `H1i`, `H2i` proof parameters. -/
structure LocalPreParams where
  paillierSK : PaillierPrivateKey
  nTildei : Int
  h1i : Int
  h2i : Int
deriving DecidableEq

/-- keygen `LocalSecrets`: the local secret share `Xi` and its `ShareID`. -/
structure LocalSecrets where
  xi : Int
  shareID : Int
deriving DecidableEq

/-- keygen `LocalPartySaveData`, the repository's `ThresholdKey`. -/
structure ThresholdKey where
  localPreParams : LocalPreParams
  localSecrets : LocalSecrets
  ks : List Int
  nTildej : List Int
  h1j : List Int
  h2j : List Int
  bigXj : List ECPoint
  paillierPKs : List Int
  ecdsaPub : ECPoint
deriving DecidableEq

/-- `groupInfo` from `tss.go`: group id, local member id, ordered member id
list, dishonest threshold (a Go `int`). Member ids are byte strings. -/
structure GroupInfo where
  groupID : String
  memberID : List Nat
  groupMemberIDs : List (List Nat)
  dishonestThreshold : Int
deriving DecidableEq

/-- `ThresholdSigner`: group info plus threshold key, the durable unit. -/
structure ThresholdSigner where
  groupInfo : GroupInfo
  thresholdKey : ThresholdKey
deriving DecidableEq

/-- Protobuf record `LocalPartySaveData_LocalPreParams_PrivateKey`. -/
structure PbPaillierPrivateKey where
  publicKey : List Nat
  lambdaN : List Nat
  phiN : List Nat
deriving DecidableEq

/-- Protobuf record `LocalPartySaveData_LocalPreParams`. -/
structure PbLocalPreParams where
  paillierSK : PbPaillierPrivateKey
  nTilde : List Nat
  h1i : List Nat
  h2i : List Nat
deriving DecidableEq

/-- Protobuf record `LocalPartySaveData_LocalSecrets`. -/
structure PbLocalSecrets where
  xi : List Nat
  shareID : List Nat
deriving DecidableEq

/-- Protobuf record `LocalPartySaveData`. -/
structure PbLocalPartySaveData where
  localPreParams : PbLocalPreParams
  localSecrets : PbLocalSecrets
  ks : List (List Nat)
  nTildej : List (List Nat)
  h1j : List (List Nat)
  h2j : List (List Nat)
  bigXj : List (List Nat)
  paillierPKs : List (List Nat)
  ecdsaPub : List Nat
deriving DecidableEq

/-- Protobuf record `ThresholdSigner_GroupInfo`; the threshold field is an
`int32` on the wire. -/
structure PbGroupInfo where
  groupID : String
  memberID : List Nat
  groupMemberIDs : List (List Nat)
  dishonestThreshold : Int
deriving DecidableEq

/-- Protobuf record `ThresholdSigner`.

Modelled from the spec: the generated protobuf byte codec (`gen/pb`, not under
the hand-written source) is a deterministic, lossless encoding of these
records, so the embedding identifies a marshalled value with its decoded
record. -/
structure PbThresholdSigner where
  groupInfo : PbGroupInfo
  thresholdKey : PbLocalPartySaveData
deriving DecidableEq

/-- `marshalBigIntSlice` from `ThresholdKey.Marshal`: each `big.Int` to its
`Bytes()`. -/
def marshalBigIntSlice (l : List Int) : List (List Nat) := l.map bigIntBytes

/-- `unmarshalBigIntSlice` from `ThresholdKey.Unmarshal`: each byte string via
`new(big.Int).SetBytes`. -/
def unmarshalBigIntSlice (l : List (List Nat)) : List Int := l.map bigIntSetBytes

/-- `ThresholdKey.Marshal` (marshaling.go:74-129), up to the protobuf byte
layer: every `big.Int` field through `Bytes()`, every `ECPoint` through
`GobEncode`. -/
def thresholdKeyMarshal (tk : ThresholdKey) : PbLocalPartySaveData :=
  { localPreParams :=
      { paillierSK :=
          { publicKey := bigIntBytes tk.localPreParams.paillierSK.publicKeyN
            lambdaN := bigIntBytes tk.localPreParams.paillierSK.lambdaN
            phiN := bigIntBytes tk.localPreParams.paillierSK.phiN }
        nTilde := bigIntBytes tk.localPreParams.nTildei
        h1i := bigIntBytes tk.localPreParams.h1i
        h2i := bigIntBytes tk.localPreParams.h2i }
    localSecrets :=
      { xi := bigIntBytes tk.localSecrets.xi
        shareID := bigIntBytes tk.localSecrets.shareID }
    ks := marshalBigIntSlice tk.ks
    nTildej := marshalBigIntSlice tk.nTildej
    h1j := marshalBigIntSlice tk.h1j
    h2j := marshalBigIntSlice tk.h2j
    bigXj := tk.bigXj.map pointGobEncode
    paillierPKs := tk.paillierPKs.map bigIntBytes
    ecdsaPub := pointGobEncode tk.ecdsaPub }

/-- `ThresholdKey.Unmarshal` (marshaling.go:132-192): `SetBytes` on every
integer field, `GobDecode` on every point; a point decode failure aborts. -/
def thresholdKeyUnmarshal (d : PbLocalPartySaveData) : Option ThresholdKey := do
  let bigXj ← d.bigXj.mapM pointGobDecode
  let ecdsaPub ← pointGobDecode d.ecdsaPub
  some
    { localPreParams :=
        { paillierSK :=
            { publicKeyN := bigIntSetBytes d.localPreParams.paillierSK.publicKey
              lambdaN := bigIntSetBytes d.localPreParams.paillierSK.lambdaN
              phiN := bigIntSetBytes d.localPreParams.paillierSK.phiN }
          nTildei := bigIntSetBytes d.localPreParams.nTilde
          h1i := bigIntSetBytes d.localPreParams.h1i
          h2i := bigIntSetBytes d.localPreParams.h2i }
      localSecrets :=
        { xi := bigIntSetBytes d.localSecrets.xi
          shareID := bigIntSetBytes d.localSecrets.shareID }
      ks := unmarshalBigIntSlice d.ks
      nTildej := unmarshalBigIntSlice d.nTildej
      h1j := unmarshalBigIntSlice d.h1j
      h2j := unmarshalBigIntSlice d.h2j
      bigXj := bigXj
      paillierPKs := d.paillierPKs.map bigIntSetBytes
      ecdsaPub := ecdsaPub }

/-- `ThresholdSigner.Marshal` (marshaling.go:14-38): member ids copied as byte
strings, the dishonest threshold narrowed by `int32(...)`. -/
def thresholdSignerMarshal (s : ThresholdSigner) : PbThresholdSigner :=
  { groupInfo :=
      { groupID := s.groupInfo.groupID
        memberID := s.groupInfo.memberID
        groupMemberIDs := s.groupInfo.groupMemberIDs.map (fun m => m)
        dishonestThreshold := wrap32 s.groupInfo.dishonestThreshold }
    thresholdKey := thresholdKeyMarshal s.thresholdKey }

/-- `ThresholdSigner.Unmarshal` (marshaling.go:41-71): rebuild the threshold
key, then the group info; `int(...)` on an `int32` value is the identity. -/
def thresholdSignerUnmarshal (b : PbThresholdSigner) : Option ThresholdSigner := do
  let tk ← thresholdKeyUnmarshal b.thresholdKey
  some
    { groupInfo :=
        { groupID := b.groupInfo.groupID
          memberID := b.groupInfo.memberID
          groupMemberIDs := b.groupInfo.groupMemberIDs.map (fun m => m)
          dishonestThreshold := b.groupInfo.dishonestThreshold }
      thresholdKey := tk }

/-- Encode-then-decode of a `ThresholdSigner`. -/
def signerRoundtrip (s : ThresholdSigner) : Option ThresholdSigner :=
  thresholdSignerUnmarshal (thresholdSignerMarshal s)

/-- Valid persisted key material: all `big.Int` fields non-negative (they are
moduli, field elements, indices) and all points within the encoder's `uint32`
length prefixes. -/
abbrev thresholdKeyValid (tk : ThresholdKey) : Prop :=
  0 ≤ tk.localPreParams.paillierSK.publicKeyN ∧
  0 ≤ tk.localPreParams.paillierSK.lambdaN ∧
  0 ≤ tk.localPreParams.paillierSK.phiN ∧
  0 ≤ tk.localPreParams.nTildei ∧
  0 ≤ tk.localPreParams.h1i ∧
  0 ≤ tk.localPreParams.h2i ∧
  0 ≤ tk.localSecrets.xi ∧
  0 ≤ tk.localSecrets.shareID ∧
  (∀ i ∈ tk.ks, 0 ≤ i) ∧
  (∀ i ∈ tk.nTildej, 0 ≤ i) ∧
  (∀ i ∈ tk.h1j, 0 ≤ i) ∧
  (∀ i ∈ tk.h2j, 0 ≤ i) ∧
  (∀ p ∈ tk.bigXj, pointEncodable p) ∧
  (∀ i ∈ tk.paillierPKs, 0 ≤ i) ∧
  pointEncodable tk.ecdsaPub

/-- Valid `ThresholdSigner` per the data model: at least 2 members,
`0 ≤ t < len(group_member_ids)`, and valid key material. -/
abbrev thresholdSignerValid (s : ThresholdSigner) : Prop :=
  2 ≤ s.groupInfo.groupMemberIDs.length ∧
  0 ≤ s.groupInfo.dishonestThreshold ∧
  s.groupInfo.dishonestThreshold < s.groupInfo.groupMemberIDs.length ∧
  thresholdKeyValid s.thresholdKey

/-- `TSSProtocolMessage` (tss.go): sender id, opaque payload, broadcast flag. -/
structure TSSProtocolMessage where
  senderID : List Nat
  payload : List Nat
  isBroadcast : Bool
deriving DecidableEq

/-- Protobuf record `TSSProtocolMessage`; as for the signer, the generated
byte codec is modelled from the spec as lossless transport of this record. -/
structure PbTSSProtocolMessage where
  senderID : List Nat
  payload : List Nat
  isBroadcast : Bool
deriving DecidableEq

/-- `TSSProtocolMessage.Marshal` (marshaling.go:195-201). -/
def protocolMessageMarshal (m : TSSProtocolMessage) : PbTSSProtocolMessage :=
  { senderID := m.senderID
    payload := m.payload
    isBroadcast := m.isBroadcast }

/-- `TSSProtocolMessage.Unmarshal` (marshaling.go:204-215). -/
def protocolMessageUnmarshal (p : PbTSSProtocolMessage) : TSSProtocolMessage :=
  { senderID := p.senderID
    payload := p.payload
    isBroadcast := p.isBroadcast }

/-- Configuration errors of `GenerateThresholdSigner` (tss.go:50-63). The
later stages (network bridge internals, the cryptographic rounds) are
external to the embedded prefix and cannot produce these errors. -/
inductive TssError
  | invalidGroupSize
  | thresholdTooLarge
deriving DecidableEq

/-- Precondition error of the signing path. -/
inductive SignError
  | invalidDigestLength
deriving DecidableEq

/-- Observable side effects of the orchestration prefix, in program order:
creating the network bridge over the network provider, the missing
pre-parameter warning, and running the join protocol (the first network
I/O). -/
inductive Event
  | bridgeCreated
  | warnedMissingPreParams
  | joinProtocolRun
deriving DecidableEq

deriving instance DecidableEq for Except

/-- Result of the embedded `GenerateThresholdSigner` prefix: the side-effect
trace and either a configuration error or the constructed `groupInfo` (the
subsequent key-generation rounds are external code). -/
structure GenOutcome where
  events : List Event
  result : Except TssError GroupInfo
deriving DecidableEq

/-- Result of the embedded `CalculateSignature` prefix: trace, the deadline
(in seconds) installed on the execution context, and either the precondition
error or progression into the signing rounds. -/
structure SignOutcome where
  events : List Event
  deadlineSeconds : Nat
  result : Except SignError Unit
deriving DecidableEq

/-- `keyGenerationTimeout` constant (tss.go:21), in seconds. -/
def keyGenerationTimeout : Nat := 120

/-- `signingTimeout` constant (tss.go:22), in seconds. It is declared but
never referenced by `CalculateSignature`, which installs
`keyGenerationTimeout` instead (tss.go:127). -/
def signingTimeout : Nat := 120

/-- Digest length demanded of callers of the signing path, in bytes.

Modelled from the spec: the body of `initializeSigning` is not under the
provided source tree; per the spec, the digest "must be exactly the hash
output length expected by the curve" (secp256k1 with SHA-256: 32 bytes) and a
longer or shorter value is rejected as `InvalidDigestLength`. -/
def digestLength : Nat := 32

/-- `GenerateThresholdSigner` (tss.go:42-113), embedded up to the hand-off to
the external key-generation rounds, preserving program order:
1. `len(groupMemberIDs) < 2` → `InvalidGroupSize` (tss.go:50-55);
2. `len(groupMemberIDs) <= int(dishonestThreshold)` → `ThresholdTooLarge`
   (tss.go:57-63), with Go's `uint`→`int` conversion made explicit;
3. the `groupInfo` value is built with `int(dishonestThreshold)` (tss.go:65-70);
4. nil pre-parameters only log a warning (tss.go:72-79);
5. the network bridge is created (tss.go:81) and the join protocol runs
   (tss.go:100). -/
def generateThresholdSigner (groupID : String) (memberID : List Nat)
    (groupMemberIDs : List (List Nat)) (dishonestThreshold : Nat)
    (preParams : Option Unit) : GenOutcome :=
  if groupMemberIDs.length < 2 then
    { events := [], result := .error .invalidGroupSize }
  else if (groupMemberIDs.length : Int) ≤ uintToInt dishonestThreshold then
    { events := [], result := .error .thresholdTooLarge }
  else
    { events :=
        (if preParams.isNone then [Event.warnedMissingPreParams] else []) ++
          [Event.bridgeCreated, Event.joinProtocolRun]
      result := .ok
        { groupID := groupID
          memberID := memberID
          groupMemberIDs := groupMemberIDs
          dishonestThreshold := uintToInt dishonestThreshold } }

/-- `ThresholdSigner.CalculateSignature` (tss.go:118-145), embedded up to the
hand-off to the external signing rounds, preserving program order: the
network bridge is created first (tss.go:122), the context deadline is
installed with the `keyGenerationTimeout` constant (tss.go:127), then
`initializeSigning` checks the digest (tss.go:130, check modelled from the
spec via `digestLength`), and only afterwards does the join protocol perform
network I/O (tss.go:135). -/
def calculateSignature (_s : ThresholdSigner) (digest : List Nat) : SignOutcome :=
  if digest.length ≠ digestLength then
    { events := [Event.bridgeCreated]
      deadlineSeconds := keyGenerationTimeout
      result := .error .invalidDigestLength }
  else
    { events := [Event.bridgeCreated, Event.joinProtocolRun]
      deadlineSeconds := keyGenerationTimeout
      result := .ok () }

/-- All-zero key material: every large-integer field zero (so every encoded
field is the empty byte string) and both points at the origin. -/
def zeroKey : ThresholdKey :=
  { localPreParams :=
      { paillierSK := { publicKeyN := 0, lambdaN := 0, phiN := 0 }
        nTildei := 0, h1i := 0, h2i := 0 }
    localSecrets := { xi := 0, shareID := 0 }
    ks := [0], nTildej := [0], h1j := [0], h2j := [0]
    bigXj := [⟨0, 0⟩], paillierPKs := [0], ecdsaPub := ⟨0, 0⟩ }

/-- A small concrete signer exercising the boundary values the spec names:
a zero-valued secret share and mixed-size member ids. -/
def sampleSigner : ThresholdSigner :=
  { groupInfo :=
      { groupID := "group-1"
        memberID := [1]
        groupMemberIDs := [[1], [2, 0], [0, 3]]
        dishonestThreshold := 1 }
    thresholdKey :=
      { localPreParams :=
          { paillierSK := { publicKeyN := 77, lambdaN := 38, phiN := 76 }
            nTildei := 256, h1i := 2, h2i := 3 }
        localSecrets := { xi := 0, shareID := 5 }
        ks := [1, 2, 3], nTildej := [256, 65536, 0], h1j := [2, 4, 6]
        h2j := [3, 9, 27], bigXj := [⟨1, 2⟩, ⟨0, 0⟩, ⟨65537, 255⟩]
        paillierPKs := [77, 143, 0], ecdsaPub := ⟨123456789, 987654321⟩ } }

/-- A valid signer whose dishonest threshold does not fit in `int32`:
`2^31 + 1` members and threshold `2^31`. -/
def bigThresholdSigner : ThresholdSigner :=
  { groupInfo :=
      { groupID := ""
        memberID := []
        groupMemberIDs := List.replicate (2 ^ 31 + 1) []
        dishonestThreshold := 2 ^ 31 }
    thresholdKey := zeroKey }

/-! ## Helper lemmas on the byte-level primitives -/

theorem natBytesAux_zero_input : ∀ fuel : Nat, natBytesAux fuel 0 = [] := by
  intro fuel
  cases fuel with
  | zero => rfl
  | succ f => simp [natBytesAux]

theorem setBytes_append_one (l : List Nat) (b : Nat) :
    setBytes (l ++ [b]) = setBytes l * 256 + b := by
  simp [setBytes, List.foldl_append]

theorem natBytesAux_set : ∀ fuel n : Nat, n ≤ fuel →
    setBytes (natBytesAux fuel n) = n := by
  intro fuel
  induction fuel with
  | zero =>
    intro n h
    have hn : n = 0 := by omega
    subst hn
    rfl
  | succ f ih =>
    intro n h
    by_cases h0 : n = 0
    · subst h0
      simp [natBytesAux, setBytes]
    · have hstep : natBytesAux (f + 1) n = natBytesAux f (n / 256) ++ [n % 256] := by
        simp [natBytesAux, h0]
      rw [hstep, setBytes_append_one, ih (n / 256) (by omega)]
      omega

theorem setBytes_natBytes (n : Nat) : setBytes (natBytes n) = n :=
  natBytesAux_set n n le_rfl

theorem bigIntSetBytes_bigIntBytes (i : Int) (h : 0 ≤ i) :
    bigIntSetBytes (bigIntBytes i) = i := by
  simp only [bigIntBytes, bigIntSetBytes, setBytes_natBytes]
  exact Int.natAbs_of_nonneg h

theorem natBytesAux_head_ne_zero : ∀ fuel n : Nat, n ≤ fuel →
    ∀ b l, natBytesAux fuel n = b :: l → b ≠ 0 := by
  intro fuel
  induction fuel with
  | zero =>
    intro n h b l heq
    have hn : n = 0 := by omega
    subst hn
    simp [natBytesAux] at heq
  | succ f ih =>
    intro n h b l heq
    by_cases h0 : n = 0
    · subst h0
      simp [natBytesAux] at heq
    · have hstep : natBytesAux (f + 1) n = natBytesAux f (n / 256) ++ [n % 256] := by
        simp [natBytesAux, h0]
      rw [hstep] at heq
      cases hx : natBytesAux f (n / 256) with
      | nil =>
        rw [hx] at heq
        simp at heq
        -- the one emitted byte is `n % 256` with `n < 256`, hence nonzero
        have hv := natBytesAux_set f (n / 256) (by omega)
        rw [hx] at hv
        simp [setBytes] at hv
        omega
      | cons b0 l0 =>
        rw [hx] at heq
        simp only [List.cons_append, List.cons.injEq] at heq
        obtain ⟨hb, -⟩ := heq
        subst hb
        exact ih (n / 256) (by omega) b0 l0 hx

theorem readLe32_le32 (n : Nat) (rest : List Nat) (h : n < 2 ^ 32) :
    readLe32 (le32 n ++ rest) = some (n, rest) := by
  simp only [le32, List.cons_append, List.nil_append, readLe32, Option.some.injEq,
    Prod.mk.injEq, and_true, eq_self_iff_true]
  omega

theorem intGobDecode_intGobEncode (i : Int) :
    intGobDecode (intGobEncode i) = some i := by
  by_cases h : i < 0
  · simp only [intGobEncode, if_pos h, intGobDecode]
    norm_num
    rw [setBytes_natBytes]
    omega
  · simp only [intGobEncode, if_neg h, intGobDecode]
    norm_num
    rw [setBytes_natBytes]
    omega

theorem pointGobDecode_pointGobEncode (p : ECPoint) (hp : pointEncodable p) :
    pointGobDecode (pointGobEncode p) = some p := by
  obtain ⟨hx, hy⟩ := hp
  unfold pointGobEncode pointGobDecode
  rw [readLe32_le32 _ _ hx]
  simp only [List.length_append, List.take_left, List.drop_left]
  rw [if_pos (by omega), intGobDecode_intGobEncode, readLe32_le32 _ _ hy]
  dsimp only
  rw [if_pos le_rfl, List.take_length, intGobDecode_intGobEncode]

theorem mapM_decode_encode (l : List ECPoint) (h : ∀ p ∈ l, pointEncodable p) :
    (l.map pointGobEncode).mapM pointGobDecode = some l := by
  induction l with
  | nil => rfl
  | cons p t ih =>
    simp only [List.map_cons, List.mapM_cons,
      pointGobDecode_pointGobEncode p (h p (by simp)),
      ih (fun q hq => h q (by simp [hq]))]
    rfl

theorem unmarshalBigIntSlice_marshal (l : List Int) (h : ∀ i ∈ l, 0 ≤ i) :
    unmarshalBigIntSlice (marshalBigIntSlice l) = l := by
  induction l with
  | nil => rfl
  | cons a t ih =>
    simp only [marshalBigIntSlice, unmarshalBigIntSlice, List.map_cons,
      List.cons.injEq] at *
    exact ⟨bigIntSetBytes_bigIntBytes a (h a (by simp)),
      ih (fun i hi => h i (by simp [hi]))⟩

theorem thresholdKeyUnmarshal_marshal (tk : ThresholdKey) (h : thresholdKeyValid tk) :
    thresholdKeyUnmarshal (thresholdKeyMarshal tk) = some tk := by
  obtain ⟨h1, h2, h3, h4, h5, h6, h7, h8, hks, hnt, hh1, hh2, hbx, hpk, hpub⟩ := h
  have hmap : (tk.paillierPKs.map bigIntBytes).map bigIntSetBytes = tk.paillierPKs :=
    unmarshalBigIntSlice_marshal tk.paillierPKs hpk
  simp only [thresholdKeyMarshal, thresholdKeyUnmarshal,
    mapM_decode_encode tk.bigXj hbx, pointGobDecode_pointGobEncode tk.ecdsaPub hpub,
    Option.bind_eq_bind, Option.some_bind, Option.some.injEq,
    unmarshalBigIntSlice_marshal tk.ks hks, unmarshalBigIntSlice_marshal tk.nTildej hnt,
    unmarshalBigIntSlice_marshal tk.h1j hh1, unmarshalBigIntSlice_marshal tk.h2j hh2,
    bigIntSetBytes_bigIntBytes _ h1, bigIntSetBytes_bigIntBytes _ h2,
    bigIntSetBytes_bigIntBytes _ h3, bigIntSetBytes_bigIntBytes _ h4,
    bigIntSetBytes_bigIntBytes _ h5, bigIntSetBytes_bigIntBytes _ h6,
    bigIntSetBytes_bigIntBytes _ h7, bigIntSetBytes_bigIntBytes _ h8, hmap]

theorem wrap32_eq_self_iff (t : Int) :
    wrap32 t = t ↔ -(2 ^ 31) ≤ t ∧ t < 2 ^ 31 := by
  simp only [wrap32]
  omega

theorem signerRoundtrip_eq (s : ThresholdSigner) (h : thresholdKeyValid s.thresholdKey) :
    signerRoundtrip s =
      some { s with groupInfo := { s.groupInfo with
        dishonestThreshold := wrap32 s.groupInfo.dishonestThreshold } } := by
  cases s with
  | mk gi tk =>
    cases gi with
    | mk gid mid ids t =>
      simp only [signerRoundtrip, thresholdSignerMarshal, thresholdSignerUnmarshal,
        thresholdKeyUnmarshal_marshal tk h, Option.bind_eq_bind, Option.some_bind,
        List.map_map]
      simp [Function.comp_def]

/-! ## Claim theorems -/

/-- C1 (amended): for every valid `ThresholdSigner` whose dishonest threshold
fits in a signed 32-bit integer, decoding the encoding reproduces the value
field-for-field — including every large-integer and curve-point field of the
threshold key and a zero-valued secret share.  (The `int32(...)` narrowing in
`ThresholdSigner.Marshal` makes the unrestricted claim false.) -/
theorem signer_roundtrip_identity (s : ThresholdSigner) (h : thresholdSignerValid s)
    (h32 : s.groupInfo.dishonestThreshold < 2 ^ 31) :
    signerRoundtrip s = some s := by
  obtain ⟨hlen, ht0, htlt, hkey⟩ := h
  have hw : wrap32 s.groupInfo.dishonestThreshold = s.groupInfo.dishonestThreshold :=
    (wrap32_eq_self_iff _).mpr ⟨by omega, h32⟩
  rw [signerRoundtrip_eq s hkey, hw]

/-- C1 witness: the round-trip theorem applied to a concrete valid signer
with a zero-valued secret share. -/
theorem signer_roundtrip_identity_witness :
    thresholdSignerValid sampleSigner ∧
      sampleSigner.groupInfo.dishonestThreshold < 2 ^ 31 ∧
      signerRoundtrip sampleSigner = some sampleSigner :=
  ⟨by decide, by decide, signer_roundtrip_identity sampleSigner (by decide) (by decide)⟩

/-- C1 counterexample: a valid signer with `2^31 + 1` members and dishonest
threshold `2^31` does not survive the round-trip — the threshold comes back
as `-2^31`. -/
theorem signer_roundtrip_not_identity :
    thresholdSignerValid bigThresholdSigner ∧
      signerRoundtrip bigThresholdSigner ≠ some bigThresholdSigner := by
  have hkey : thresholdKeyValid bigThresholdSigner.thresholdKey := by decide
  have hlen : bigThresholdSigner.groupInfo.groupMemberIDs.length = 2 ^ 31 + 1 := by
    show (List.replicate (2 ^ 31 + 1) ([] : List Nat)).length = 2 ^ 31 + 1
    rw [List.length_replicate]
  constructor
  · refine ⟨?_, by decide, ?_, hkey⟩
    · rw [hlen]
      norm_num
    · rw [hlen]
      show (2 ^ 31 : Int) < ((2 ^ 31 + 1 : Nat) : Int)
      norm_num
  · intro hcontra
    rw [signerRoundtrip_eq _ hkey] at hcontra
    have h1 := Option.some.inj hcontra
    have h2 := congrArg (fun z => z.groupInfo.dishonestThreshold) h1
    have h3 : bigThresholdSigner.groupInfo.dishonestThreshold = 2 ^ 31 := rfl
    simp only [h3, wrap32] at h2
    omega

/-- C2: a group with fewer than 2 member ids is rejected with
`InvalidGroupSize` before anything else happens, regardless of the other
arguments. -/
theorem small_group_rejected (gid : String) (mid : List Nat)
    (ids : List (List Nat)) (t : Nat) (pp : Option Unit) (h : ids.length < 2) :
    generateThresholdSigner gid mid ids t pp =
      { events := [], result := .error .invalidGroupSize } := by
  simp [generateThresholdSigner, h]

/-- C2 witness: a 1-member group is rejected with `InvalidGroupSize`. -/
theorem small_group_rejected_witness :
    generateThresholdSigner "group" [1] [[1]] 0 none =
      { events := [], result := .error .invalidGroupSize } :=
  small_group_rejected "group" [1] [[1]] 0 none (by decide)

/-- C3 counterexample: a 2-member group with `dishonestThreshold = 2^63`
(which is `≥ len(groupMemberIDs)`) is NOT rejected: Go's `uint`→`int`
conversion turns `2^63` into `-2^63`, the comparison `len <= int(t)` is
false, and validation passes, storing a negative threshold. -/
theorem threshold_check_overflow :
    (generateThresholdSigner "g" [1] [[1], [2]] (2 ^ 63) none).result =
        Except.ok (⟨"g", [1], [[1], [2]], -(2 ^ 63)⟩ : GroupInfo) ∧
      (generateThresholdSigner "g" [1] [[1], [2]] (2 ^ 63) none).result ≠
        Except.error TssError.thresholdTooLarge := by
  constructor
  · decide
  · decide

/-- C3 (amended): for `dishonestThreshold < 2^63` — the range in which Go's
`uint`→`int` conversion preserves the value — a group of size ≥ 2 with
`len(groupMemberIDs) ≤ dishonestThreshold` fails with `ThresholdTooLarge`;
and the spec's example holds: 3 members with threshold 3 are rejected while
threshold 2 passes validation. -/
theorem threshold_too_large_rejected :
    (∀ (gid : String) (mid : List Nat) (ids : List (List Nat)) (t : Nat)
        (pp : Option Unit), 2 ≤ ids.length → t < 2 ^ 63 → ids.length ≤ t →
        (generateThresholdSigner gid mid ids t pp).result =
          .error .thresholdTooLarge) ∧
      (generateThresholdSigner "g" [1] [[1], [2], [3]] 3 none).result =
        .error .thresholdTooLarge ∧
      (generateThresholdSigner "g" [1] [[1], [2], [3]] 2 none).result ≠
        .error .thresholdTooLarge ∧
      (∃ g, (generateThresholdSigner "g" [1] [[1], [2], [3]] 2 none).result =
        .ok g) := by
  refine ⟨?_, by decide, by decide,
    ⟨(⟨"g", [1], [[1], [2], [3]], 2⟩ : GroupInfo), by decide⟩⟩
  intro gid mid ids t pp h2 hu hle
  have hn1 : ¬ ids.length < 2 := by omega
  have hui : uintToInt t = (t : Int) := by
    unfold uintToInt
    rw [if_pos hu]
  have hcast : (ids.length : Int) ≤ uintToInt t := by
    rw [hui]; exact_mod_cast hle
  simp [generateThresholdSigner, hn1, hcast]

/-- C3 witness: the amended rejection applied at a 2-member group with
threshold 2. -/
theorem threshold_too_large_rejected_witness :
    (generateThresholdSigner "g" [1] [[1], [2]] 2 none).result =
      .error .thresholdTooLarge :=
  threshold_too_large_rejected.1 "g" [1] [[1], [2]] 2 none (by decide) (by decide)
    (by decide)

/-- C4 counterexample: signing with a 31-byte digest does fail with
`InvalidDigestLength`, but only after the network bridge has been created
(tss.go creates the bridge at line 122, before `initializeSigning` sees the
digest), contradicting the claim that no network bridge creation occurs. -/
theorem digest_rejected_after_bridge :
    (calculateSignature sampleSigner (List.replicate 31 0)).result =
        Except.error SignError.invalidDigestLength ∧
      Event.bridgeCreated ∈
        (calculateSignature sampleSigner (List.replicate 31 0)).events := by
  decide

/-- C4 (amended): a digest whose length is not the curve's hash output length
is rejected with `InvalidDigestLength` before the join protocol runs (so
before any network I/O), but after the network bridge has already been
created. -/
theorem digest_length_precondition (s : ThresholdSigner) (digest : List Nat)
    (h : digest.length ≠ digestLength) :
    (calculateSignature s digest).result = Except.error SignError.invalidDigestLength ∧
      Event.joinProtocolRun ∉ (calculateSignature s digest).events ∧
      Event.bridgeCreated ∈ (calculateSignature s digest).events := by
  simp [calculateSignature, h]

/-- C4 witness: the amended statement at a 31-byte digest. -/
theorem digest_length_precondition_witness :
    (List.replicate 31 0).length ≠ digestLength ∧
      ((calculateSignature sampleSigner (List.replicate 31 0)).result =
          Except.error SignError.invalidDigestLength ∧
        Event.joinProtocolRun ∉
          (calculateSignature sampleSigner (List.replicate 31 0)).events ∧
        Event.bridgeCreated ∈
          (calculateSignature sampleSigner (List.replicate 31 0)).events) :=
  ⟨by decide, digest_length_precondition sampleSigner (List.replicate 31 0) (by decide)⟩

/-- C5: whenever `GenerateThresholdSigner` returns a configuration error, the
side-effect trace is empty — in particular the network bridge was never
created and the join protocol never ran, so the network provider was never
invoked. -/
theorem config_error_before_network (gid : String) (mid : List Nat)
    (ids : List (List Nat)) (t : Nat) (pp : Option Unit) (e : TssError)
    (h : (generateThresholdSigner gid mid ids t pp).result = .error e) :
    (generateThresholdSigner gid mid ids t pp).events = [] ∧
      Event.bridgeCreated ∉ (generateThresholdSigner gid mid ids t pp).events ∧
      Event.joinProtocolRun ∉ (generateThresholdSigner gid mid ids t pp).events := by
  by_cases h1 : ids.length < 2
  · simp [generateThresholdSigner, h1]
  · by_cases h2 : (ids.length : Int) ≤ uintToInt t
    · simp [generateThresholdSigner, h1, h2]
    · simp [generateThresholdSigner, h1, h2] at h

/-- C5 witness: the no-network-activity property at a concrete failing
configuration. -/
theorem config_error_before_network_witness :
    (generateThresholdSigner "g" [1] [[1]] 0 none).result =
        Except.error TssError.invalidGroupSize ∧
      ((generateThresholdSigner "g" [1] [[1]] 0 none).events = [] ∧
        Event.bridgeCreated ∉ (generateThresholdSigner "g" [1] [[1]] 0 none).events ∧
        Event.joinProtocolRun ∉
          (generateThresholdSigner "g" [1] [[1]] 0 none).events) :=
  ⟨by decide, config_error_before_network "g" [1] [[1]] 0 none
    TssError.invalidGroupSize (by decide)⟩

/-- C6 counterexample: marshalling key material whose secret share `Xi` is
zero emits the empty byte string for it — the encoder does not emit at least
one byte for a zero-valued large-integer field. -/
theorem zero_field_encoded_empty :
    (thresholdKeyMarshal zeroKey).localSecrets.xi = [] ∧
      marshalBigIntSlice [0] = [[]] := by
  decide

/-- C6 (amended): the encoder emits the minimal big-endian representation of
each large-integer field: a zero value becomes the empty byte string, a
leading zero byte is never emitted (so semantically significant leading
zeros of a fixed-width field are stripped), and decoding still reproduces
the value because protobuf fields are length-delimited. -/
theorem bigint_encoding_minimal (i : Int) (h : 0 ≤ i) :
    bigIntSetBytes (bigIntBytes i) = i ∧
      (bigIntBytes i = [] ↔ i = 0) ∧
      ∀ b l, bigIntBytes i = b :: l → b ≠ 0 := by
  refine ⟨bigIntSetBytes_bigIntBytes i h, ⟨?_, ?_⟩, ?_⟩
  · intro he
    have hv := setBytes_natBytes i.natAbs
    rw [show natBytes i.natAbs = [] from he] at hv
    simp [setBytes] at hv
    omega
  · intro he
    subst he
    rfl
  · intro b l heq
    exact natBytesAux_head_ne_zero i.natAbs i.natAbs le_rfl b l heq

/-- C6 witness: the minimal-encoding theorem applied at zero. -/
theorem bigint_encoding_minimal_witness :
    (0 : Int) ≤ 0 ∧
      (bigIntSetBytes (bigIntBytes 0) = 0 ∧
        (bigIntBytes 0 = [] ↔ (0 : Int) = 0) ∧
        ∀ b l, bigIntBytes 0 = b :: l → b ≠ 0) :=
  ⟨by decide, bigint_encoding_minimal 0 (by decide)⟩

/-- C7 (code bug evidence): the deadline installed by `CalculateSignature` is
the `keyGenerationTimeout` constant — the declared `signingTimeout` constant
is never used — and both constants happen to equal 120 seconds, so every
signing execution is bounded by 120s, but not by an independent signing
deadline. -/
theorem signing_deadline_uses_keygen_timeout (s : ThresholdSigner)
    (digest : List Nat) :
    (calculateSignature s digest).deadlineSeconds = keyGenerationTimeout ∧
      keyGenerationTimeout = 120 ∧ signingTimeout = 120 := by
  by_cases h : digest.length ≠ digestLength <;>
    simp [calculateSignature, h, keyGenerationTimeout, signingTimeout]

/-- C8: with a valid group configuration and nil pre-parameters, the
execution does not fail on account of the missing pre-parameters: the
warning is logged and the execution proceeds to create the network bridge
and run the join protocol. -/
theorem nil_preparams_proceeds (gid : String) (mid : List Nat)
    (ids : List (List Nat)) (t : Nat) (h2 : 2 ≤ ids.length)
    (hu : t < 2 ^ 63) (ht : t < ids.length) :
    (∃ g, (generateThresholdSigner gid mid ids t none).result = .ok g) ∧
      Event.warnedMissingPreParams ∈
        (generateThresholdSigner gid mid ids t none).events ∧
      Event.bridgeCreated ∈ (generateThresholdSigner gid mid ids t none).events := by
  have hn1 : ¬ ids.length < 2 := by omega
  have hui : uintToInt t = (t : Int) := by
    unfold uintToInt
    rw [if_pos hu]
  have hn2 : ¬ ((ids.length : Int) ≤ uintToInt t) := by
    rw [hui]
    exact_mod_cast Nat.not_le.mpr ht
  refine ⟨⟨⟨gid, mid, ids, uintToInt t⟩, ?_⟩, ?_, ?_⟩ <;>
    simp [generateThresholdSigner, hn1, hn2]

/-- C8 witness: nil pre-parameters with a valid 2-member group. -/
theorem nil_preparams_proceeds_witness :
    2 ≤ ([[1], [2]] : List (List Nat)).length ∧
      ((∃ g, (generateThresholdSigner "g" [1] [[1], [2]] 1 none).result = .ok g) ∧
        Event.warnedMissingPreParams ∈
          (generateThresholdSigner "g" [1] [[1], [2]] 1 none).events ∧
        Event.bridgeCreated ∈
          (generateThresholdSigner "g" [1] [[1], [2]] 1 none).events) :=
  ⟨by decide, nil_preparams_proceeds "g" [1] [[1], [2]] 1 (by decide) (by decide)
    (by decide)⟩

/-- C9: encode→decode of the protocol message envelope is the identity on
sender id, payload bytes and broadcast flag. -/
theorem protocol_message_roundtrip (m : TSSProtocolMessage) :
    protocolMessageUnmarshal (protocolMessageMarshal m) = m := by
  cases m
  rfl

/-- C10: the `ThresholdSigner` round-trip maps the dishonest threshold
through the `int32` narrowing `wrap32` (reduction modulo `2^32` with sign
reinterpretation), so it is preserved exactly if and only if the value fits
in a signed 32-bit integer. -/
theorem threshold_wraps_to_int32 (s : ThresholdSigner)
    (h : thresholdKeyValid s.thresholdKey) :
    (signerRoundtrip s).map (fun r => r.groupInfo.dishonestThreshold) =
        some (wrap32 s.groupInfo.dishonestThreshold) ∧
      (wrap32 s.groupInfo.dishonestThreshold = s.groupInfo.dishonestThreshold ↔
        -(2 ^ 31) ≤ s.groupInfo.dishonestThreshold ∧
          s.groupInfo.dishonestThreshold < 2 ^ 31) := by
  refine ⟨?_, wrap32_eq_self_iff _⟩
  rw [signerRoundtrip_eq s h]
  rfl

/-- C10 witness: the wrap law at a concrete signer. -/
theorem threshold_wraps_to_int32_witness :
    thresholdKeyValid sampleSigner.thresholdKey ∧
      ((signerRoundtrip sampleSigner).map (fun r => r.groupInfo.dishonestThreshold) =
          some (wrap32 sampleSigner.groupInfo.dishonestThreshold) ∧
        (wrap32 sampleSigner.groupInfo.dishonestThreshold =
            sampleSigner.groupInfo.dishonestThreshold ↔
          -(2 ^ 31) ≤ sampleSigner.groupInfo.dishonestThreshold ∧
            sampleSigner.groupInfo.dishonestThreshold < 2 ^ 31)) :=
  ⟨by decide, threshold_wraps_to_int32 sampleSigner (by decide)⟩

end KeepTss
